import Mathlib

/-!
Verification development for the dymium-auth-plugin repository.

The repository holds two TypeScript plugin variants (token resolution, an
auth fetch wrapper, an HTTP/1.1 client, a process-wide session tracker) and
two implementation guides whose Go pseudocode defines the SSE "reasoning
stream" flow (the helpers sendReasoningEvent / sendContentEvent /
sendDoneEvent and the chat handlers built from them).  This file gives a
shallow embedding of those functions and proves or refutes the frozen
claims about them.

Modelling conventions:
* Go strings are byte sequences; final-answer content is modelled as
  `List Nat` of UTF-8 bytes, while the fixed status messages are kept as
  Lean string literals (their exact codepoints).
* `generateChunkID` is not shown in the source.  It takes no arguments and
  is called once per emitted frame, and ids are per-stream data, so it is
  modelled as a fresh-id counter threaded through the helpers (the guide
  itself asks whether chunks should "share the same ID, or use unique IDs",
  which only makes sense if each call yields a new id, and the second guide
  deliberately captures one `completionID` up front instead).
* Header collections (the fetch `Headers` object and the observable header
  set of a Node outgoing request) are case-insensitive name/value maps;
  they are modelled as association lists whose stored names are lowercased
  and whose update is last-wins, which matches both `Headers.set` and the
  order in which Node applies the keys of a spread object literal.
-/

/-! ## UTF-8 encoding (Go string representation) -/

/-- Number of bytes of the UTF-8 encoding of a codepoint. -/
def utf8EncodeChar (c : Nat) : List Nat :=
  if c < 128 then [c]
  else if c < 2048 then [192 + c / 64, 128 + c % 64]
  else if c < 65536 then [224 + c / 4096, 128 + (c / 64) % 64, 128 + c % 64]
  else [240 + c / 262144, 128 + (c / 4096) % 64, 128 + (c / 64) % 64, 128 + c % 64]

/-- A Go string: the UTF-8 byte sequence of a list of codepoints. -/
def utf8Encode (cs : List Nat) : List Nat :=
  (cs.map utf8EncodeChar).flatten

/-- Byte offsets that lie on codepoint boundaries of the encoded string
(cumulative sums of codepoint byte lengths, starting at `off`). -/
def codepointBoundaries : List Nat → Nat → List Nat
  | [], off => [off]
  | c :: rest, off => off :: codepointBoundaries rest (off + (utf8EncodeChar c).length)

/-! ## sendContentEvent content chunking (part_000, lines 138-162)

The Go loop `for i := 0; i < len(content); i += 50` slices the byte string
`content[i:end]` with `end := min(i+50, len(content))`.  `chunkContent`
returns exactly those slices in order. -/

/-- One step of the Go loop per unit of fuel: while the remaining byte
string is non-empty, slice off `content[i : min (i+50) len]` and continue
with the rest.  The fuel only bounds the number of iterations (each
iteration consumes at least one byte, so `bs.length` is always enough);
the structural recursion on it lets the kernel evaluate the function. -/
def chunkContentAux : Nat → List Nat → List (List Nat)
  | _, [] => []
  | 0, _ :: _ => []
  | fuel + 1, b :: rest => ((b :: rest).take 50) :: chunkContentAux fuel ((b :: rest).drop 50)

/-- The 50-byte slices of the content, in emission order. -/
def chunkContent (bs : List Nat) : List (List Nat) :=
  chunkContentAux bs.length bs

/-- Byte offsets at which the emitted fragments begin and end
(cumulative fragment lengths, starting at `off`). -/
def chunkOffsets : List (List Nat) → Nat → List Nat
  | [], off => [off]
  | c :: rest, off => off :: chunkOffsets rest (off + c.length)

/-! ## Wire frames of the part_000 helpers (part_000, lines 116-184)

Each helper builds one `chat.completion.chunk` JSON object with fields
`id`, `object`, `created`, `model` and a single choice
`{index, delta, finish_reason}`.  The delta holds either a
`reasoning_content` string, a `content` string (modelled as bytes), or is
empty; `finish_reason` is `nil` except in the done chunk. -/

structure Choice where
  index : Nat
  reasoningContent : Option String
  content : Option (List Nat)
  finishReason : Option String
deriving DecidableEq, Repr

structure Chunk where
  id : Nat
  object : String
  created : Nat
  model : String
  choices : List Choice
deriving DecidableEq, Repr

/-- One line of the SSE stream: a `data: <json>` frame or `data: [DONE]`. -/
inductive SSELine
  | data (c : Chunk)
  | done
deriving DecidableEq, Repr

def mkReasoningChunk (gen now : Nat) (message : String) : Chunk :=
  ⟨gen, "chat.completion.chunk", now, "ghostllm", [⟨0, some message, none, none⟩]⟩

def mkContentChunk (gen now : Nat) (bytes : List Nat) : Chunk :=
  ⟨gen, "chat.completion.chunk", now, "ghostllm", [⟨0, none, some bytes, none⟩]⟩

def mkDoneChunk (gen now : Nat) : Chunk :=
  ⟨gen, "chat.completion.chunk", now, "ghostllm", [⟨0, none, none, some "stop"⟩]⟩

/-- `sendReasoningEvent` (part_000, lines 116-136): one reasoning frame,
with a fresh id from `generateChunkID()`. -/
def sendReasoningEvent (gen now : Nat) (message : String) : List SSELine × Nat :=
  ([SSELine.data (mkReasoningChunk gen now message)], gen + 1)

/-- One content frame per 50-byte slice, each with a fresh id. -/
def contentChunksFrom (gen now : Nat) : List (List Nat) → List SSELine
  | [] => []
  | c :: rest => SSELine.data (mkContentChunk gen now c) :: contentChunksFrom (gen + 1) now rest

/-- `sendContentEvent` (part_000, lines 138-162): the loop over the 50-byte
slices of the content, emitting one content frame per slice. -/
def sendContentEvent (gen now : Nat) (content : List Nat) : List SSELine × Nat :=
  (contentChunksFrom gen now (chunkContent content), gen + (chunkContent content).length)

/-- `sendDoneEvent` (part_000, lines 164-184): the final chunk with
`finish_reason = "stop"`, followed by the `data: [DONE]` sentinel. -/
def sendDoneEvent (gen now : Nat) : List SSELine × Nat :=
  ([SSELine.data (mkDoneChunk gen now), SSELine.done], gen + 1)

/-! ## The part_000 "new code flow" (part_000, lines 80-111)

Securing → (Protected if `len(piiMap) > 0`) → Waiting →
`CallCompletion` (whose error result `err` is bound but never checked) →
Restoring → content frames → done.  `resp` is the de-obfuscated content
string handed to `sendContentEvent`; `err` records whether the completion
call failed, and is ignored exactly as the source ignores it. -/

def securingMsg : String := "🔒 Securing your request..."

def protectedMsg (count : Nat) : String :=
  "🛡️ Protected " ++ Nat.repr count ++ " sensitive items"

def waitingMsg : String := "🤖 Waiting for AI response..."

def restoringMsg : String := "🔓 Restoring protected data..."

/-- Next id after the optional Protected frame. -/
def genAfterProtected (gen pc : Nat) : Nat :=
  if 0 < pc then gen + 2 else gen + 1

def newCodeFlow (gen now pc : Nat) (resp : List Nat) (err : Bool) : List SSELine :=
  (sendReasoningEvent gen now securingMsg).1
  ++ (if 0 < pc then (sendReasoningEvent (gen + 1) now (protectedMsg pc)).1 else [])
  ++ (sendReasoningEvent (genAfterProtected gen pc) now waitingMsg).1
  ++ (sendReasoningEvent (genAfterProtected gen pc + 1) now restoringMsg).1
  ++ (sendContentEvent (genAfterProtected gen pc + 2) now resp).1
  ++ (sendDoneEvent (sendContentEvent (genAfterProtected gen pc + 2) now resp).2 now).1

/-! ## Observation functions on part_000 streams -/

/-- Whether a chunk carries a non-null `finish_reason`. -/
def chunkHasFinish (c : Chunk) : Bool :=
  c.choices.any (fun ch => ch.finishReason.isSome)

def lineHasFinish : SSELine → Bool
  | SSELine.data c => chunkHasFinish c
  | SSELine.done => false

/-- Number of frames of the stream carrying a non-null `finish_reason`. -/
def finishFrames (ls : List SSELine) : Nat :=
  ls.countP lineHasFinish

def lineHasReasoning (msg : String) : SSELine → Bool
  | SSELine.data c => c.choices.any (fun ch => ch.reasoningContent == some msg)
  | SSELine.done => false

/-- Whether some frame of the stream is a reasoning frame with message `msg`. -/
def containsReasoningMsg (ls : List SSELine) (msg : String) : Bool :=
  ls.any (lineHasReasoning msg)

def lineHasContent : SSELine → Bool
  | SSELine.data c => c.choices.any (fun ch => ch.content.isSome)
  | SSELine.done => false

/-- Whether some frame of the stream is a content frame. -/
def hasContentFrame (ls : List SSELine) : Bool :=
  ls.any lineHasContent

def lineId : SSELine → Option Nat
  | SSELine.data c => some c.id
  | SSELine.done => none

/-- The `id` fields of the stream frames, in emission order. -/
def streamIds (ls : List SSELine) : List Nat :=
  ls.filterMap lineId

/-- Whether all elements of the list are equal. -/
def allEqual : List Nat → Bool
  | [] => true
  | x :: rest => rest.all (fun y => y == x)

/-! ## The index.ts guide handler (src/index.ts, lines 700-759)

The second guide's `handleChatCompletion` captures one
`completionID` up front and reuses it in every frame.  Its chunk format
string is `{"id":..., "object":"chat.completion.chunk", "choices":
[{"index":0,"delta":{...}}]}` — it contains no `finish_reason` key, so the
`finishReason` observation of every frame it emits is absent (`none`).
If the transport is not an `http.Flusher`, the handler answers
`http.Error(w, "Streaming not supported", 500)` and returns before any
frame is written. -/

inductive IdxDelta
  | reasoning (msg : String)
  | content (c : List Nat)
deriving DecidableEq, Repr

structure IdxChoice where
  index : Nat
  delta : IdxDelta
  /-- The format string has no `finish_reason` key: a consumer reading the
  field of any emitted frame gets an absent (null) value. -/
  finishReason : Option String
deriving DecidableEq, Repr

structure IdxChunk where
  id : String
  object : String
  choices : List IdxChoice
deriving DecidableEq, Repr

inductive IdxLine
  | data (c : IdxChunk)
  | done
deriving DecidableEq, Repr

inductive HandlerResult
  | httpError (status : Nat) (msg : String)
  | stream (lines : List IdxLine)
deriving DecidableEq, Repr

def idxReasoningChunk (cid msg : String) : IdxChunk :=
  ⟨cid, "chat.completion.chunk", [⟨0, IdxDelta.reasoning msg, none⟩]⟩

def idxContentChunk (cid : String) (c : List Nat) : IdxChunk :=
  ⟨cid, "chat.completion.chunk", [⟨0, IdxDelta.content c, none⟩]⟩

def idxSecuringMsg : String := "🔒 Securing request..."

def idxProtectedMsg (count : Nat) : String :=
  "🔒 Protected " ++ Nat.repr count ++ " sensitive items"

def idxWaitingMsg : String := "🤖 Waiting for AI response..."

def idxRestoringMsg : String := "🔓 Restoring protected data..."

/-- `handleChatCompletion` (index.ts guide): flusher check, then
Securing, optional Protected, Waiting, Restoring, one content frame with
the whole final response (`sendContent(finalResponse)` is called once),
then the `data: [DONE]` sentinel — no finish_reason frame. -/
def handleChatCompletion (supportsFlusher : Bool) (cid : String) (pc : Nat)
    (finalContent : List Nat) : HandlerResult :=
  if supportsFlusher = false then
    HandlerResult.httpError 500 "Streaming not supported"
  else
    HandlerResult.stream
      ([IdxLine.data (idxReasoningChunk cid idxSecuringMsg)]
        ++ (if 0 < pc then [IdxLine.data (idxReasoningChunk cid (idxProtectedMsg pc))] else [])
        ++ [IdxLine.data (idxReasoningChunk cid idxWaitingMsg),
            IdxLine.data (idxReasoningChunk cid idxRestoringMsg),
            IdxLine.data (idxContentChunk cid finalContent),
            IdxLine.done])

def idxLineHasFinish : IdxLine → Bool
  | IdxLine.data c => c.choices.any (fun ch => ch.finishReason.isSome)
  | IdxLine.done => false

/-- Number of frames with a non-null `finish_reason`, `none` when the
handler answered with an HTTP error instead of a stream. -/
def resultFinishCount : HandlerResult → Option Nat
  | HandlerResult.httpError _ _ => none
  | HandlerResult.stream ls => some (ls.countP idxLineHasFinish)

def surfacesHttpError : HandlerResult → Bool
  | HandlerResult.httpError _ _ => true
  | HandlerResult.stream _ => false

/-! ## The process-wide session tracker (src/index.ts, lines 28-47 and 384-446)

`sessionState` is one module-level mutable record.  The auth `loader`
(called once per request) writes `requestStartTime`, `isProcessing` and
`lastStatus` into it; the `session.idle` event handler reads
`requestStartTime` to log the completed duration.  Log lines are modelled
as their message strings (the timestamp prefix added by `log` is
irrelevant here); the JavaScript truthiness test
`if (sessionState.requestStartTime)` makes a stored time of `0` falsy. -/

structure SessionState where
  requestStartTime : Option Nat
  lastStatus : Option String
  isProcessing : Bool
deriving DecidableEq, Repr

def initialSessionState : SessionState :=
  ⟨none, none, false⟩

/-- `formatDuration` (index.ts, lines 40-47). -/
def formatDuration (ms : Nat) : String :=
  if ms < 1000 then Nat.repr ms ++ "ms"
  else if ms / 1000 < 60 then Nat.repr (ms / 1000) ++ "s"
  else Nat.repr (ms / 1000 / 60) ++ "m " ++ Nat.repr (ms / 1000 % 60) ++ "s"

/-- The `loader` hook (index.ts, lines 384-401): records the request
start in the shared record, whatever was there before. -/
def loader (now : Nat) (s : SessionState) : SessionState :=
  { s with requestStartTime := some now, isProcessing := true, lastStatus := some "connecting" }

/-- The `session.idle` event case (index.ts, lines 437-446): log the
duration computed from the shared `requestStartTime`, clear it, and mark
the session idle.  Returns the updated state and the emitted log lines. -/
def eventSessionIdle (now : Nat) (s : SessionState) : SessionState × List String :=
  match s.requestStartTime with
  | some start =>
      if start ≠ 0 then
        ({ s with requestStartTime := none, isProcessing := false, lastStatus := some "idle" },
          ["Session completed in " ++ formatDuration (now - start)])
      else
        ({ s with isProcessing := false, lastStatus := some "idle" }, [])
  | none => ({ s with isProcessing := false, lastStatus := some "idle" }, [])

/-! ## Case-insensitive header maps

`Headers` stores lowercased names; Node applies the keys of a literal
header object in insertion order through case-insensitive `setHeader`, so
the observable header set of a request is a last-wins case-insensitive
map.  Stored names are kept lowercased; lookups lowercase the query. -/

def lowerName (s : String) : String :=
  String.mk (s.data.map Char.toLower)

def normHeaders (hs : List (String × String)) : List (String × String) :=
  hs.map (fun p => (lowerName p.1, p.2))

def setHeader (hs : List (String × String)) (n v : String) : List (String × String) :=
  (lowerName n, v) :: hs.filter (fun p => p.1 != lowerName n)

def getHeader (hs : List (String × String)) (n : String) : Option String :=
  (hs.find? (fun p => p.1 == lowerName n)).map (fun p => p.2)

/-- All stored names of the map are already lowercased. -/
def keysLower (hs : List (String × String)) : Prop :=
  ∀ p ∈ hs, lowerName p.1 = p.1

/-! ## resolveToken (src/unnamed/part_001, lines 27-44)

Filesystem inputs: `tokenFile` is the result of reading the
dymium-provider token file (`none` when the read throws), and `dymiumKey`
is `auth?.dymium?.key` of the parsed auth.json (`none` when the file is
missing, unparsable, or the key path is absent or null; otherwise the
JSON value found there, which may or may not be a string).  All failure
paths are swallowed by the source's `catch {}` blocks, so the function is
total. -/

/-- JavaScript `String.prototype.trim`: strip leading and trailing
whitespace (structural over the character list, so the kernel can
evaluate it). -/
def jsTrim (s : String) : String :=
  String.mk ((((s.data.dropWhile Char.isWhitespace).reverse).dropWhile Char.isWhitespace).reverse)

inductive JsVal
  | str (s : String)
  | nonStr
deriving DecidableEq, Repr

structure FS where
  tokenFile : Option String
  dymiumKey : Option JsVal
deriving DecidableEq, Repr

/-- The auth.json fallback branch: `if (key && typeof key === "string" &&
key.trim()) return key.trim()`. -/
def authJsonFallback (fs : FS) : Option String :=
  match fs.dymiumKey with
  | some (JsVal.str k) => if k ≠ "" ∧ jsTrim k ≠ "" then some (jsTrim k) else none
  | _ => none

/-- `resolveToken`: token file first (`if (token) return token` on the
trimmed contents, falling through on an empty trim or a read error), then
the auth.json key, then `null`. -/
def resolveToken (fs : FS) : Option String :=
  match fs.tokenFile with
  | some contents => if jsTrim contents ≠ "" then some (jsTrim contents) else authJsonFallback fs
  | none => authJsonFallback fs

/-- Modelled from the claim's words (claim C8): the trimmed token file
contents when the file is readable and non-empty after trimming;
otherwise the trimmed `dymium.key` when that field is a non-empty string
(non-empty after the same trimming, which is what the returned trimmed
value being a token means); otherwise null. -/
def resolveTokenSpec (fs : FS) : Option String :=
  match fs.tokenFile with
  | some contents =>
      if jsTrim contents ≠ "" then some (jsTrim contents)
      else match fs.dymiumKey with
        | some (JsVal.str k) => if jsTrim k ≠ "" then some (jsTrim k) else none
        | _ => none
  | none =>
      match fs.dymiumKey with
      | some (JsVal.str k) => if jsTrim k ≠ "" then some (jsTrim k) else none
      | _ => none

/-! ## The part_001 auth fetch wrapper (src/unnamed/part_001, lines 69-93)

`const headers = new Headers(init?.headers); if (token)
headers.set("Authorization", `Bearer ${token}`); return fetch(input,
{...init, headers})`.  The function below is the header set of the
forwarded request; everything else of `init` is passed through
unchanged. -/

def authFetchHeaders (token : Option String) (initHeaders : List (String × String)) :
    List (String × String) :=
  match token with
  | some t => setHeader (normHeaders initHeaders) "Authorization" ("Bearer " ++ t)
  | none => normHeaders initHeaders

/-! ## http11Request and dymiumFetch (src/index.ts, lines 210-350)

`http11Request` sends `{...options.headers, "Host": url.hostname,
"Connection": "close"}` plus a `Content-Length` when a body is present
(`if (options.body)` — absent and empty bodies both skip it, so the body
is an `Option` of a non-empty byte string).  `URL.hostname` never
contains the port (the port is the separate `port` component).
`dymiumFetch` starts from the Content-Type/Accept defaults, copies the
caller's headers over them, then overwrites Authorization with the fresh
bearer token, and hands the result to `http11Request`. -/

structure URLParts where
  hostname : String
  port : Option Nat
deriving DecidableEq, Repr

def http11RequestHeaders (url : URLParts) (optHeaders : List (String × String))
    (body : Option (List Nat)) : List (String × String) :=
  match body with
  | some b =>
      setHeader (setHeader (setHeader (normHeaders optHeaders) "Host" url.hostname)
        "Connection" "close") "Content-Length" (Nat.repr b.length)
  | none =>
      setHeader (setHeader (normHeaders optHeaders) "Host" url.hostname) "Connection" "close"

def dymiumFetchHeaders (token : String) (initHeaders : List (String × String)) :
    List (String × String) :=
  setHeader
    (initHeaders.foldl (fun acc p => setHeader acc p.1 p.2)
      (setHeader (setHeader [] "Content-Type" "application/json")
        "Accept" "application/json, text/event-stream"))
    "Authorization" ("Bearer " ++ token)

/-! ## Theorems -/

theorem chunkContentAux_flatten (fuel : Nat) (bs : List Nat) (h : bs.length ≤ fuel) :
    (chunkContentAux fuel bs).flatten = bs := by
  induction fuel generalizing bs with
  | zero =>
      cases bs with
      | nil => rfl
      | cons b rest => simp at h
  | succ n ih =>
      cases bs with
      | nil => rfl
      | cons b rest =>
          rw [chunkContentAux]
          rw [List.flatten_cons]
          rw [ih ((b :: rest).drop 50) (by simp at h ⊢; omega)]
          exact List.take_append_drop 50 (b :: rest)

/-- Claim C1, counterexample: for the content "aaa…a é" (49 ASCII bytes
followed by U+00E9, whose UTF-8 encoding is the two bytes 195 169), the
chunking cuts at byte offset 50, which is not a codepoint boundary — the
two bytes of é land in different fragments. -/
theorem c1_counterexample :
    50 ∈ chunkOffsets (chunkContent (utf8Encode (List.replicate 49 97 ++ [233]))) 0
    ∧ 50 ∉ codepointBoundaries (List.replicate 49 97 ++ [233]) 0 := by decide

/-- Claim C1, amended: concatenating the fragments emitted by
`sendContentEvent` in order reproduces the input byte string exactly (the
fragment boundaries, however, sit at fixed 50-byte offsets and need not be
codepoint boundaries). -/
theorem c1_amended (bs : List Nat) : (chunkContent bs).flatten = bs :=
  chunkContentAux_flatten bs.length bs (Nat.le_refl bs.length)

/-- Claim C2, code evaluated at the failing input: one zero-findings
stream of the part_000 flow gives its five frames the five distinct ids
0,1,2,3,4 — successive `generateChunkID()` results — instead of one shared
id. -/
theorem c2_code_bug_eval :
    streamIds (newCodeFlow 0 7 0 [104] false) = [0, 1, 2, 3, 4]
    ∧ allEqual (streamIds (newCodeFlow 0 7 0 [104] false)) = false := by decide

/-- Claim C4, counterexample: a stream with zero findings still emits the
Restoring frame (the flow sends it unconditionally), so "no Restoring
frame is ever emitted when the findings count is zero" is false. -/
theorem c4_counterexample :
    containsReasoningMsg (newCodeFlow 0 7 0 [104] false) restoringMsg = true
    ∧ containsReasoningMsg (newCodeFlow 0 7 0 [104] false) (protectedMsg 0) = false := by decide

/-- Claim C6, code evaluated at the failing input: when the completion
call fails during the Waiting phase (findings count 1, response bytes
"hi"), the flow ignores the error — the emitted frames are identical to
the success run, still contain the Restoring frame and a content frame,
and contain no error status frame. -/
theorem c6_code_bug_eval :
    newCodeFlow 0 7 1 [104, 105] true = newCodeFlow 0 7 1 [104, 105] false
    ∧ containsReasoningMsg (newCodeFlow 0 7 1 [104, 105] true) restoringMsg = true
    ∧ hasContentFrame (newCodeFlow 0 7 1 [104, 105] true) = true := by decide

/-- Claim C3, counterexample: a stream of the index.ts guide handler has
zero frames with a non-null finish_reason (its chunk format has no
finish_reason key and it emits no terminal chunk), not exactly one. -/
theorem c3_counterexample :
    resultFinishCount (handleChatCompletion true "chatcmpl-abc" 1 [104, 105]) = some 0 := by decide

/-- Claim C7, counterexample: for a transport without a flush primitive
the index.ts guide handler surfaces an HTTP 500 "Streaming not supported"
error to the client instead of falling back to a buffered JSON
response. -/
theorem c7_counterexample :
    handleChatCompletion false "chatcmpl-x" 1 [104] = HandlerResult.httpError 500 "Streaming not supported"
    ∧ surfacesHttpError (handleChatCompletion false "chatcmpl-x" 1 [104]) = true := by decide

/-- Claim C7, amended: the missing flush primitive is detected before any
frame is written — the handler returns at once, for every request, with
the fixed HTTP 500 error and no stream — but the condition is surfaced to
the client as that error instead of a BufferedResponse fallback. -/
theorem c7_amended (cid : String) (pc : Nat) (finalContent : List Nat) :
    handleChatCompletion false cid pc finalContent
      = HandlerResult.httpError 500 "Streaming not supported" := rfl

/-- Claim C5, counterexample: with the shared `sessionState`, request A
(loader at time 0) observes a different log from its `session.idle`
handling at time 150 depending on whether request B's loader ran at time
100 in between — the frames of one request read state written by the
other. -/
theorem c5_counterexample :
    (eventSessionIdle 150 (loader 100 (loader 0 initialSessionState))).2
      ≠ (eventSessionIdle 150 (loader 0 initialSessionState)).2 := by decide

/-! ### Header map lemmas -/

theorem getHeader_setHeader_self (hs : List (String × String)) (n v : String) :
    getHeader (setHeader hs n v) n = some v := by
  simp [getHeader, setHeader, List.find?]

theorem getHeader_setHeader_ne (hs : List (String × String)) (n0 v n : String)
    (h : lowerName n ≠ lowerName n0) :
    getHeader (setHeader hs n0 v) n = getHeader hs n := by
  unfold getHeader setHeader
  have hne : (lowerName n0 == lowerName n) = false := by
    simp only [beq_eq_false_iff_ne, ne_eq]
    exact fun e => h e.symm
  rw [List.find?]
  simp only [hne]
  induction hs with
  | nil => rfl
  | cons p rest ih =>
      by_cases hp : p.1 = lowerName n0
      · have hdrop : (p.1 != lowerName n0) = false := by simp [hp]
        rw [List.filter_cons]
        simp only [hdrop]
        rw [List.find?]
        have hq : (p.1 == lowerName n) = false := by
          simp only [beq_eq_false_iff_ne, ne_eq, hp]
          exact fun e => h e.symm
        simp only [hq]
        exact ih
      · have hkeep : (p.1 != lowerName n0) = true := by simp [hp]
        rw [List.filter_cons]
        simp only [hkeep, if_true]
        rw [List.find?, List.find?]
        cases hq : (p.1 == lowerName n) with
        | true => rfl
        | false => exact ih

theorem getHeader_fold_none (ps : List (String × String)) (acc : List (String × String))
    (n : String) (h1 : getHeader (normHeaders ps) n = none) (h2 : getHeader acc n = none) :
    getHeader (ps.foldl (fun a p => setHeader a p.1 p.2) acc) n = none := by
  induction ps generalizing acc with
  | nil => exact h2
  | cons p rest ih =>
      have hhd : (lowerName p.1 == lowerName n) = false := by
        by_contra hc
        rw [Bool.not_eq_false, beq_iff_eq] at hc
        simp [getHeader, normHeaders, List.find?, hc] at h1
      have hrest : getHeader (normHeaders rest) n = none := by
        simp only [getHeader, normHeaders, List.map_cons, List.find?, hhd] at h1 ⊢
        exact h1
      have hne : lowerName n ≠ lowerName p.1 := by
        intro e
        rw [e] at hhd
        simp at hhd
      rw [List.foldl_cons]
      exact ih (setHeader acc p.1 p.2) hrest
        (by rw [getHeader_setHeader_ne _ _ _ _ hne]; exact h2)

theorem toNat_ofNat_valid (n : Nat) (h : n.isValidChar) : (Char.ofNat n).toNat = n := by
  rw [Char.ofNat, dif_pos h]
  rfl

theorem toLower_idem (c : Char) : Char.toLower (Char.toLower c) = Char.toLower c := by
  unfold Char.toLower
  by_cases h : c.toNat ≥ 65 ∧ c.toNat ≤ 90
  · rw [if_pos h]
    have hv : (c.toNat + 32).isValidChar := Or.inl (by omega)
    have ht : (Char.ofNat (c.toNat + 32)).toNat = c.toNat + 32 := toNat_ofNat_valid _ hv
    rw [if_neg]
    rw [ht]
    omega
  · rw [if_neg h, if_neg h]

theorem lowerName_idem (s : String) : lowerName (lowerName s) = lowerName s := by
  unfold lowerName
  simp only [List.map_map]
  congr 1
  exact List.map_congr_left (fun c _ => toLower_idem c)

theorem keysLower_nil : keysLower [] := by
  intro p hp
  cases hp

theorem keysLower_setHeader (hs : List (String × String)) (n v : String)
    (h : keysLower hs) : keysLower (setHeader hs n v) := by
  intro p hp
  rw [setHeader] at hp
  cases hp with
  | head => exact lowerName_idem n
  | tail _ hmem => exact h p (List.mem_of_mem_filter hmem)

theorem keysLower_fold (ps : List (String × String)) (acc : List (String × String))
    (h : keysLower acc) :
    keysLower (ps.foldl (fun a p => setHeader a p.1 p.2) acc) := by
  induction ps generalizing acc with
  | nil => exact h
  | cons p rest ih => exact ih _ (keysLower_setHeader _ _ _ h)

theorem normHeaders_of_keysLower (hs : List (String × String)) (h : keysLower hs) :
    normHeaders hs = hs := by
  rw [normHeaders]
  induction hs with
  | nil => rfl
  | cons p rest ih =>
      rw [List.map_cons]
      rw [h p (List.mem_cons_self p rest)]
      rw [ih (fun q hq => h q (List.mem_cons_of_mem p hq))]

theorem keysLower_dymiumFetch (token : String) (initHeaders : List (String × String)) :
    keysLower (dymiumFetchHeaders token initHeaders) := by
  rw [dymiumFetchHeaders]
  apply keysLower_setHeader
  apply keysLower_fold
  apply keysLower_setHeader
  apply keysLower_setHeader
  exact keysLower_nil

/-- After trimming, a non-empty result means the original was non-empty. -/
theorem ne_empty_of_jsTrim_ne (k : String) (h : jsTrim k ≠ "") : k ≠ "" := by
  intro he
  subst he
  exact h rfl

/-- Claim C8: `resolveToken` never raises (it is a total function of the
filesystem state) and computes exactly the claimed cascade — the trimmed
token file contents when readable and non-empty after trimming, else the
trimmed non-empty `dymium.key` string of auth.json, else null, with the
token file always taking precedence. -/
theorem c8_resolveToken_spec (fs : FS) : resolveToken fs = resolveTokenSpec fs := by
  rcases fs with ⟨tf, dk⟩
  have hfall : authJsonFallback ⟨tf, dk⟩
      = match dk with
        | some (JsVal.str k) => if jsTrim k ≠ "" then some (jsTrim k) else none
        | _ => none := by
    rw [authJsonFallback]
    cases dk with
    | none => rfl
    | some v =>
        cases v with
        | nonStr => rfl
        | str k =>
            by_cases hk : jsTrim k = ""
            · simp [hk]
            · simp [hk, ne_empty_of_jsTrim_ne k hk]
  cases tf with
  | none =>
      rw [resolveToken, resolveTokenSpec]
      exact hfall
  | some contents =>
      rw [resolveToken, resolveTokenSpec]
      by_cases hc : jsTrim contents = ""
      · simp only [hc, ne_eq, not_true_eq_false, if_false]
        exact hfall
      · simp [hc]

/-- Claim C9: the part_001 auth fetch wrapper never raises; with no
resolved token it forwards the caller's headers untouched (adding no
Authorization header), and with a resolved token it overwrites any
caller-supplied Authorization with `Bearer <token>` while leaving every
other header unchanged. -/
theorem c9_auth_wrapper :
    (∀ hs, authFetchHeaders none hs = normHeaders hs)
    ∧ (∀ t hs, getHeader (authFetchHeaders (some t) hs) "Authorization"
        = some ("Bearer " ++ t))
    ∧ (∀ t hs n, lowerName n ≠ lowerName "Authorization" →
        getHeader (authFetchHeaders (some t) hs) n = getHeader (normHeaders hs) n) := by
  refine ⟨fun hs => rfl, fun t hs => getHeader_setHeader_self _ _ _, ?_⟩
  intro t hs n h
  exact getHeader_setHeader_ne _ _ _ _ h

/-- Witness for C9 at a concrete request: the caller's Authorization is
overwritten with the fresh bearer token and an unrelated caller header
survives unchanged. -/
theorem c9_witness :
    getHeader (authFetchHeaders (some "tok") [("Authorization", "Bearer old"), ("X-Custom", "v")])
        "Authorization" = some ("Bearer " ++ "tok")
    ∧ getHeader (authFetchHeaders (some "tok") [("Authorization", "Bearer old"), ("X-Custom", "v")])
        "X-Custom"
      = getHeader (normHeaders [("Authorization", "Bearer old"), ("X-Custom", "v")]) "X-Custom" :=
  ⟨c9_auth_wrapper.2.1 "tok" [("Authorization", "Bearer old"), ("X-Custom", "v")],
   c9_auth_wrapper.2.2 "tok" [("Authorization", "Bearer old"), ("X-Custom", "v")] "X-Custom"
     (by decide)⟩

/-- Claim C10: every request of the dymiumFetch / http11Request path goes
out with `Host` set to the URL's hostname (the component without the
port) and `Connection` set to `close`, whatever the caller supplied for
those names, and no code path introduces an `X-GhostLLM-App` header: if
the caller's headers lack it, the outgoing request lacks it too. -/
theorem c10_outgoing_headers :
    (∀ url optHeaders body, getHeader (http11RequestHeaders url optHeaders body) "Host"
      = some url.hostname)
    ∧ (∀ url optHeaders body, getHeader (http11RequestHeaders url optHeaders body) "Connection"
      = some "close")
    ∧ (∀ url token initHeaders body,
        getHeader (normHeaders initHeaders) "X-GhostLLM-App" = none →
        getHeader (http11RequestHeaders url (dymiumFetchHeaders token initHeaders) body)
          "X-GhostLLM-App" = none) := by
  refine ⟨?_, ?_, ?_⟩
  · intro url optHeaders body
    cases body with
    | some b =>
        rw [http11RequestHeaders]
        rw [getHeader_setHeader_ne _ _ _ _ (by decide)]
        rw [getHeader_setHeader_ne _ _ _ _ (by decide)]
        exact getHeader_setHeader_self _ _ _
    | none =>
        rw [http11RequestHeaders]
        rw [getHeader_setHeader_ne _ _ _ _ (by decide)]
        exact getHeader_setHeader_self _ _ _
  · intro url optHeaders body
    cases body with
    | some b =>
        rw [http11RequestHeaders]
        rw [getHeader_setHeader_ne _ _ _ _ (by decide)]
        exact getHeader_setHeader_self _ _ _
    | none =>
        rw [http11RequestHeaders]
        exact getHeader_setHeader_self _ _ _
  · intro url token initHeaders body h
    have hbase : getHeader (setHeader (setHeader [] "Content-Type" "application/json")
        "Accept" "application/json, text/event-stream") "X-GhostLLM-App" = none := by decide
    have hdy : getHeader (dymiumFetchHeaders token initHeaders) "X-GhostLLM-App" = none := by
      rw [dymiumFetchHeaders]
      rw [getHeader_setHeader_ne _ _ _ _ (by decide)]
      exact getHeader_fold_none initHeaders _ _ h hbase
    have hnorm : getHeader (normHeaders (dymiumFetchHeaders token initHeaders))
        "X-GhostLLM-App" = none := by
      rw [normHeaders_of_keysLower _ (keysLower_dymiumFetch token initHeaders)]
      exact hdy
    cases body with
    | some b =>
        rw [http11RequestHeaders]
        rw [getHeader_setHeader_ne _ _ _ _ (by decide)]
        rw [getHeader_setHeader_ne _ _ _ _ (by decide)]
        rw [getHeader_setHeader_ne _ _ _ _ (by decide)]
        exact hnorm
    | none =>
        rw [http11RequestHeaders]
        rw [getHeader_setHeader_ne _ _ _ _ (by decide)]
        rw [getHeader_setHeader_ne _ _ _ _ (by decide)]
        exact hnorm

/-- Witness for C10 at a concrete request: caller-supplied Connection and
Host values are overridden, and no X-GhostLLM-App header appears. -/
theorem c10_witness :
    getHeader (http11RequestHeaders ⟨"spoofcorp.llm.dymium.home", some 3000⟩
        (dymiumFetchHeaders "t" [("Connection", "keep-alive"), ("Host", "evil:8080")])
        (some [1, 2])) "Host" = some "spoofcorp.llm.dymium.home"
    ∧ getHeader (http11RequestHeaders ⟨"spoofcorp.llm.dymium.home", some 3000⟩
        (dymiumFetchHeaders "t" [("Connection", "keep-alive"), ("Host", "evil:8080")])
        (some [1, 2])) "Connection" = some "close"
    ∧ getHeader (http11RequestHeaders ⟨"spoofcorp.llm.dymium.home", some 3000⟩
        (dymiumFetchHeaders "t" [("Connection", "keep-alive"), ("Host", "evil:8080")])
        (some [1, 2])) "X-GhostLLM-App" = none :=
  ⟨c10_outgoing_headers.1 ⟨"spoofcorp.llm.dymium.home", some 3000⟩ _ _,
   c10_outgoing_headers.2.1 ⟨"spoofcorp.llm.dymium.home", some 3000⟩ _ _,
   c10_outgoing_headers.2.2 ⟨"spoofcorp.llm.dymium.home", some 3000⟩ "t"
     [("Connection", "keep-alive"), ("Host", "evil:8080")] (some [1, 2]) (by decide)⟩

/-! ### part_000 stream lemmas -/

theorem sendReasoning_fst (gen now : Nat) (m : String) :
    (sendReasoningEvent gen now m).1 = [SSELine.data (mkReasoningChunk gen now m)] := rfl

theorem sendContent_fst (gen now : Nat) (c : List Nat) :
    (sendContentEvent gen now c).1 = contentChunksFrom gen now (chunkContent c) := rfl

theorem sendDone_fst (gen now : Nat) :
    (sendDoneEvent gen now).1 = [SSELine.data (mkDoneChunk gen now), SSELine.done] := rfl

theorem finishFrames_nil : finishFrames [] = 0 := rfl

theorem finishFrames_reasoning (gen now : Nat) (m : String) :
    finishFrames [SSELine.data (mkReasoningChunk gen now m)] = 0 := rfl

theorem finishFrames_done_pair (gen now : Nat) :
    finishFrames [SSELine.data (mkDoneChunk gen now), SSELine.done] = 1 := rfl

theorem finishFrames_append (a b : List SSELine) :
    finishFrames (a ++ b) = finishFrames a + finishFrames b := by
  simp [finishFrames, List.countP_append]

theorem finishFrames_contentChunks (cs : List (List Nat)) (gen now : Nat) :
    finishFrames (contentChunksFrom gen now cs) = 0 := by
  induction cs generalizing gen with
  | nil => rfl
  | cons c rest ih =>
      rw [contentChunksFrom]
      rw [finishFrames, List.countP_cons]
      have hc : lineHasFinish (SSELine.data (mkContentChunk gen now c)) = false := rfl
      rw [hc]
      have hz : (if (false = true) then 1 else 0) = 0 := rfl
      rw [hz, Nat.add_zero]
      exact ih (gen + 1)

theorem crm_nil (m : String) : containsReasoningMsg [] m = false := rfl

theorem crm_reasoning (gen now : Nat) (m m2 : String) :
    containsReasoningMsg [SSELine.data (mkReasoningChunk gen now m)] m2 = (m == m2) := by
  simp [containsReasoningMsg, lineHasReasoning, mkReasoningChunk]

theorem crm_done_pair (gen now : Nat) (m : String) :
    containsReasoningMsg [SSELine.data (mkDoneChunk gen now), SSELine.done] m = false := rfl

theorem containsReasoningMsg_append (a b : List SSELine) (m : String) :
    containsReasoningMsg (a ++ b) m
      = (containsReasoningMsg a m || containsReasoningMsg b m) := by
  simp [containsReasoningMsg, List.any_append]

theorem containsReasoningMsg_contentChunks (cs : List (List Nat)) (gen now : Nat) (m : String) :
    containsReasoningMsg (contentChunksFrom gen now cs) m = false := by
  induction cs generalizing gen with
  | nil => rfl
  | cons c rest ih =>
      rw [contentChunksFrom]
      rw [containsReasoningMsg, List.any_cons]
      have hc : lineHasReasoning m (SSELine.data (mkContentChunk gen now c)) = false := rfl
      rw [hc]
      simp only [Bool.false_or]
      exact ih (gen + 1)

/-- Claim C3, amended: every stream of the part_000 flow has exactly one
frame with a non-null finish_reason — the `sendDoneEvent` chunk, whose
finish_reason is "stop" — and that frame is the last one emitted,
immediately before the `data: [DONE]` sentinel.  (The index.ts guide
variant, refuted separately, emits no such frame at all.) -/
theorem c3_amended (gen now pc : Nat) (resp : List Nat) (err : Bool) :
    ∃ l gid, newCodeFlow gen now pc resp err
        = l ++ [SSELine.data (mkDoneChunk gid now), SSELine.done]
      ∧ finishFrames l = 0
      ∧ chunkHasFinish (mkDoneChunk gid now) = true
      ∧ finishFrames (newCodeFlow gen now pc resp err) = 1 := by
  refine ⟨(sendReasoningEvent gen now securingMsg).1
      ++ ((if 0 < pc then (sendReasoningEvent (gen + 1) now (protectedMsg pc)).1 else [])
      ++ ((sendReasoningEvent (genAfterProtected gen pc) now waitingMsg).1
      ++ ((sendReasoningEvent (genAfterProtected gen pc + 1) now restoringMsg).1
      ++ (sendContentEvent (genAfterProtected gen pc + 2) now resp).1))),
    (sendContentEvent (genAfterProtected gen pc + 2) now resp).2, ?_, ?_, rfl, ?_⟩
  · rw [newCodeFlow, sendDone_fst]
    simp only [List.append_assoc]
  · by_cases hpc : 0 < pc <;>
      simp only [hpc, if_true, if_false, finishFrames_append, sendReasoning_fst,
        sendContent_fst, finishFrames_reasoning, finishFrames_nil,
        finishFrames_contentChunks, Nat.add_zero]
  · rw [newCodeFlow]
    by_cases hpc : 0 < pc <;>
      simp only [hpc, if_true, if_false, finishFrames_append, sendReasoning_fst,
        sendContent_fst, sendDone_fst, finishFrames_reasoning, finishFrames_nil,
        finishFrames_done_pair, finishFrames_contentChunks, Nat.add_zero, Nat.zero_add]

/-- Claim C4, amended: the Protected frame is emitted exactly when the
findings count is positive, but the Restoring frame is emitted on every
run of the part_000 flow, regardless of the findings count (the source
sends it unconditionally after the completion call). -/
theorem c4_amended (gen now pc : Nat) (resp : List Nat) (err : Bool) :
    containsReasoningMsg (newCodeFlow gen now pc resp err) (protectedMsg pc) = decide (0 < pc)
    ∧ containsReasoningMsg (newCodeFlow gen now pc resp err) restoringMsg = true := by
  constructor
  · by_cases hpc : 0 < pc
    · rw [newCodeFlow]
      simp only [hpc, if_true, containsReasoningMsg_append, sendReasoning_fst,
        sendContent_fst, sendDone_fst, crm_reasoning, crm_done_pair,
        containsReasoningMsg_contentChunks]
      simp [hpc]
    · have h0 : pc = 0 := by omega
      subst h0
      rw [newCodeFlow]
      simp only [Nat.lt_irrefl, if_false, containsReasoningMsg_append, sendReasoning_fst,
        sendContent_fst, sendDone_fst, crm_reasoning, crm_nil, crm_done_pair,
        containsReasoningMsg_contentChunks, Bool.or_false, Bool.false_or]
      decide
  · rw [newCodeFlow]
    simp only [containsReasoningMsg_append, sendReasoning_fst, sendContent_fst, sendDone_fst,
      crm_reasoning, crm_nil, crm_done_pair, containsReasoningMsg_contentChunks]
    simp

/-- Claim C5, amended: index.ts keeps one process-wide mutable
`sessionState`: a second request's loader call overwrites the record
written by the first, and the first request's `session.idle` handling
then reads the second request's start time, so the observable log of one
request changes with the presence of another. -/
theorem c5_amended (s : SessionState) (t0 t1 t2 : Nat) (h : 0 < t1) :
    loader t1 (loader t0 s) = loader t1 s
    ∧ (eventSessionIdle t2 (loader t1 s)).2
      = ["Session completed in " ++ formatDuration (t2 - t1)] := by
  have ht : t1 ≠ 0 := Nat.pos_iff_ne_zero.mp h
  exact ⟨rfl, by simp [eventSessionIdle, loader, ht]⟩

/-- Witness for C5 at concrete times: loader at 0 (request A), loader at
100 (request B), idle handling at 150 logs the duration 50 computed from
request B's start. -/
theorem c5_witness :
    loader 100 (loader 0 initialSessionState) = loader 100 initialSessionState
    ∧ (eventSessionIdle 150 (loader 100 initialSessionState)).2
      = ["Session completed in " ++ formatDuration (150 - 100)] :=
  c5_amended initialSessionState 0 100 150 (by decide)
